import Mathlib

/-!
Verification of the pathfinder blockchain data-access layer.

This file gives a shallow embedding of the repository's core components and
proves properties about them:

* the data model (`Txid`, `OutPoint`, `Transaction`, `BlockchainError`) from
  `src/blockchain/error.rs` and the `bitcoin` crate types the code uses;
* the TTL caching decorator `CachingDataSource` from `src/blockchain/cache.rs`
  (the `HashMap<CacheKey, CachedEntry>` is modelled as an association list with
  overwrite-on-insert, `tokio::time::Instant` as a natural-number clock passed
  explicitly to each call, and the wrapped source as a pure function; each
  operation returns its result together with the updated map and the number of
  wrapped-source invocations it performed);
* the Esplora REST adapter `EsploraClient` from `src/blockchain/esplora.rs`
  (the HTTP transport, the `bitcoin` hex decoder and the serde JSON parser are
  parameters collected in `EsploraWorld`; each operation also returns the
  ordered list of `throttle` sleeps and HTTP GETs it issues);
* the JSON-RPC adapter's `rpc_call` response handling from
  `src/blockchain/bitcoin_rpc.rs` over a small JSON value model.
-/

namespace Pathfinder

/-- Transaction id (`bitcoin::Txid`, a 32-byte content hash); the adapters and
the cache only compare and print it, so it is modelled as a natural number. -/
abbrev Txid := Nat

/-- Mirrors `bitcoin::OutPoint`: a transaction id plus an output index. -/
structure OutPoint where
  txid : Txid
  vout : Nat
deriving DecidableEq, Repr

/-- `bitcoin::Transaction`. The code under verification treats transactions
opaquely (they are only decoded, cloned, stored and returned), so the model
carries an identifying value only. -/
structure Transaction where
  id : Nat
deriving DecidableEq, Repr

/-- `bitcoin::Address`; only passed through, modelled as a string. -/
abbrev Address := String

/-- Mirrors `BlockchainError` in `src/blockchain/error.rs`. The `Other`
variant's `anyhow::Error` payload is modelled by its message string. -/
inductive BlockchainError where
  | NetworkFailure (detail : String)
  | NotFound (detail : String)
  | InvalidInput (detail : String)
  | RateLimited
  | DataInconsistency (detail : String)
  | Other (detail : String)
deriving DecidableEq, Repr

/-! ## The caching decorator (`src/blockchain/cache.rs`) -/

/-- Mirrors `CacheKey` in `src/blockchain/cache.rs`: a tagged union over the
two query shapes, with structural (derived) equality and hashing. -/
inductive CacheKey where
  | Transaction (txid : Txid)
  | Spending (outpoint : OutPoint)
deriving DecidableEq, Repr

/-- Mirrors `CachedEntry`: a transaction plus the monotonic instant at which
it was inserted (`tokio::time::Instant`, modelled as a natural number). -/
structure CachedEntry where
  transaction : Transaction
  inserted_at : Nat
deriving DecidableEq, Repr

/-- The decorator's `HashMap<CacheKey, CachedEntry>`, modelled as an
association list. -/
abbrev Cache := List (CacheKey × CachedEntry)

/-- `HashMap::get`: the entry stored under `k`, if any. -/
def cacheGet (c : Cache) (k : CacheKey) : Option CachedEntry :=
  match c with
  | [] => none
  | (k', e) :: rest => if k' = k then some e else cacheGet rest k

/-- `HashMap::insert`: store `e` under `k`, overwriting any previous entry. -/
def cacheInsert (c : Cache) (k : CacheKey) (e : CachedEntry) : Cache :=
  (k, e) :: c.filter (fun p => decide (p.1 ≠ k))

/-- `entry.inserted_at.elapsed() < self.ttl` at clock value `now`: the read
path's freshness test in `CachingDataSource::get_transaction` and
`CachingDataSource::get_spending_transaction`. -/
def freshHit (c : Cache) (ttl now : Nat) (k : CacheKey) : Bool :=
  match cacheGet c k with
  | some entry => now - entry.inserted_at < ttl
  | none => false

/-- `CachingDataSource::get_transaction` (`src/blockchain/cache.rs:85`).
The wrapped source is the pure function `inner`; the call happens at clock
value `now`. Returns the result, the updated map, and how many times `inner`
was invoked (0 on a fresh cache hit, 1 otherwise). -/
def CachingDataSource.get_transaction
    (inner : Txid → Except BlockchainError Transaction)
    (ttl : Nat) (cache : Cache) (now : Nat) (txid : Txid) :
    Except BlockchainError Transaction × Cache × Nat :=
  let key := CacheKey.Transaction txid
  -- Check the cache (read lock); hit only if present and not expired.
  let hit : Option Transaction :=
    match cacheGet cache key with
    | some entry => if now - entry.inserted_at < ttl then some entry.transaction else none
    | none => none
  match hit with
  | some tx => (Except.ok tx, cache, 0)
  | none =>
    -- cache miss or expired, fetch Transaction from source; `?` propagates errors
    match inner txid with
    | Except.error e => (Except.error e, cache, 1)
    | Except.ok tx =>
      -- Store the fetched Tx into cache (write lock)
      (Except.ok tx, cacheInsert cache key ⟨tx, now⟩, 1)

/-- `CachingDataSource::get_spending_transaction` (`src/blockchain/cache.rs:119`).
`None` (unspent) results are not written to the cache. -/
def CachingDataSource.get_spending_transaction
    (inner : OutPoint → Except BlockchainError (Option Transaction))
    (ttl : Nat) (cache : Cache) (now : Nat) (outpoint : OutPoint) :
    Except BlockchainError (Option Transaction) × Cache × Nat :=
  let key := CacheKey.Spending outpoint
  -- check the cache (read lock)
  let hit : Option Transaction :=
    match cacheGet cache key with
    | some entry => if now - entry.inserted_at < ttl then some entry.transaction else none
    | none => none
  match hit with
  | some tx => (Except.ok (some tx), cache, 0)
  | none =>
    -- cache miss or expired, fetch Transaction from source
    match inner outpoint with
    | Except.error e => (Except.error e, cache, 1)
    | Except.ok tx =>
      -- Update cache only if we got a transaction; None (unspent) is not cached
      match tx with
      | some transaction =>
        (Except.ok (some transaction), cacheInsert cache key ⟨transaction, now⟩, 1)
      | none => (Except.ok none, cache, 1)

/-- `N` consecutive `get_spending_transaction` calls on the same decorator for
the same outpoint, at the given sequence of clock values; returns the final
map and the total number of wrapped-source invocations. -/
def iterateSpending
    (inner : OutPoint → Except BlockchainError (Option Transaction))
    (ttl : Nat) (outpoint : OutPoint) :
    List Nat → Cache → Cache × Nat
  | [], cache => (cache, 0)
  | now :: times, cache =>
    let step := CachingDataSource.get_spending_transaction inner ttl cache now outpoint
    let rest := iterateSpending inner ttl outpoint times step.2.1
    (rest.1, step.2.2 + rest.2)

/-! ## The Esplora adapter (`src/blockchain/esplora.rs`) -/

/-- One observable outbound action of `EsploraClient`: a `tokio::time::sleep`
(the `throttle` helper) or an HTTP GET issued by `reqwest`. -/
inductive EsploraEvent where
  | sleepMs (millis : Nat)
  | httpGet (url : String)
deriving DecidableEq, Repr

/-- A completed HTTP exchange: the status code and the body. Reading the body
(`response.text()` / inside `response.json()`) can itself fail in `reqwest`;
that failure is the `Except.error` case, carrying the error's message. -/
structure HttpResponse where
  status : Nat
  body : Except String String

/-- `reqwest::StatusCode::is_success()`: status in 200..=299. -/
def statusIsSuccess (status : Nat) : Bool := 200 ≤ status && status < 300

/-- Mirrors `OutspendResponse` in `src/blockchain/esplora.rs`: the decoded
body of the `outspend` endpoint (the unused `_vin` field is omitted). -/
structure OutspendResponse where
  spent : Bool
  txid : Option Txid
deriving DecidableEq, Repr

/-- The adapter's external collaborators: the HTTP transport (`reqwest`,
`Except.error` = `send()` failed, carrying the error's message),
`bitcoin::consensus::encode::deserialize_hex`, and serde's JSON decoding of
the outspend body. -/
structure EsploraWorld where
  net : String → Except String HttpResponse
  decodeHex : String → Except String Transaction
  parseOutspend : String → Except String OutspendResponse

/-- URL built by `EsploraClient::get_transaction`:
`format!("{}/tx/{}/hex", base_url, txid)`. -/
def txHexUrl (base_url : String) (txid : Txid) : String :=
  base_url ++ "/tx/" ++ toString txid ++ "/hex"

/-- URL built by `EsploraClient::get_spending_transaction`:
`format!("{}/tx/{}/outspend/{}", base_url, outpoint.txid, outpoint.vout)`. -/
def outspendUrl (base_url : String) (outpoint : OutPoint) : String :=
  base_url ++ "/tx/" ++ toString outpoint.txid ++ "/outspend/" ++ toString outpoint.vout

/-- `EsploraClient::get_transaction` (`src/blockchain/esplora.rs:71`).
Returns the ordered list of outbound actions together with the result. -/
def EsploraClient.get_transaction (w : EsploraWorld) (base_url : String) (txid : Txid) :
    List EsploraEvent × Except BlockchainError Transaction :=
  let url := txHexUrl base_url txid
  let events := [EsploraEvent.httpGet url]
  match w.net url with
  | Except.error e => (events, Except.error (BlockchainError.NetworkFailure e))
  | Except.ok response =>
    -- Immediately check for 404 as it would mean transaction id does not exist
    if response.status = 404 then
      (events, Except.error (BlockchainError.NotFound
        ("Transaction " ++ toString txid ++ " not found")))
    -- handle any other 4xx/5xx errors
    else if statusIsSuccess response.status = false then
      let body := match response.body with
        | Except.ok b => b
        | Except.error _ => "Failed to read body"
      (events, Except.error (BlockchainError.NetworkFailure
        ("HTTP " ++ toString response.status ++ " for " ++ url ++ ": " ++ body)))
    else
      match response.body with
      | Except.error e => (events, Except.error (BlockchainError.NetworkFailure e))
      | Except.ok hex =>
        match w.decodeHex hex with
        | Except.ok tx => (events, Except.ok tx)
        | Except.error e =>
          (events, Except.error (BlockchainError.DataInconsistency ("Invalid hex: " ++ e)))

/-- `EsploraClient::get_spending_transaction` (`src/blockchain/esplora.rs:124`).
Starts with `self.throttle().await` (a 100 ms sleep), probes the outspend
endpoint and, only on `spent == true` with a txid, performs a full
`get_transaction` fetch. -/
def EsploraClient.get_spending_transaction (w : EsploraWorld) (base_url : String)
    (outpoint : OutPoint) :
    List EsploraEvent × Except BlockchainError (Option Transaction) :=
  -- protect against mempool.space rate limiting
  let url := outspendUrl base_url outpoint
  let events := [EsploraEvent.sleepMs 100, EsploraEvent.httpGet url]
  match w.net url with
  | Except.error e => (events, Except.error (BlockchainError.NetworkFailure e))
  | Except.ok response =>
    -- Immediately check for 404 as it would mean transaction id does not exist
    if response.status = 404 then
      (events, Except.error (BlockchainError.NotFound
        ("Transaction " ++ toString outpoint.txid ++ " not found")))
    -- handle any other 4xx/5xx errors
    else if statusIsSuccess response.status = false then
      let body := match response.body with
        | Except.ok b => b
        | Except.error _ => "Failed to read body"
      (events, Except.error (BlockchainError.NetworkFailure
        ("HTTP " ++ toString response.status ++ " for " ++ url ++ ": " ++ body)))
    else
      -- Deserialize the response into our OutspendResponse struct
      match response.body.bind w.parseOutspend with
      | Except.error e => (events, Except.error (BlockchainError.DataInconsistency e))
      | Except.ok outspend =>
        -- if output is not spent return None immediately
        if outspend.spent = false then (events, Except.ok none)
        else
          -- If spent, fetch the full transaction data using the txid that was found
          match outspend.txid with
          | some spendingTxid =>
            let follow := EsploraClient.get_transaction w base_url spendingTxid
            (events ++ follow.1, follow.2.map some)
          | none =>
            (events, Except.error (BlockchainError.DataInconsistency
              "Outspend marked spent but no txid returned"))

/-- `true` iff every HTTP GET in the event list is immediately preceded by a
sleep; the first argument records whether the previous event was a sleep. -/
def pacedAfter : Bool → List EsploraEvent → Bool
  | _, [] => true
  | prevWasDelay, EsploraEvent.httpGet _ :: rest => prevWasDelay && pacedAfter false rest
  | _, EsploraEvent.sleepMs _ :: rest => pacedAfter true rest

/-- Every outbound request in the event list is preceded by a pacing delay. -/
def paced (events : List EsploraEvent) : Bool := pacedAfter false events

/-- Number of sleep events in an event list. -/
def sleepCount (events : List EsploraEvent) : Nat :=
  events.countP (fun e => match e with | EsploraEvent.sleepMs _ => true | _ => false)

/-! ## The JSON-RPC adapter (`src/blockchain/bitcoin_rpc.rs`) -/

/-- A `serde_json::Value`. -/
inductive Json where
  | null
  | bool (b : Bool)
  | num (n : Int)
  | str (s : String)
  | arr (items : List Json)
  | obj (fields : List (String × Json))

/-- Field lookup in a `serde_json::Map` (modelled as an association list). -/
def jsonObjGet (fields : List (String × Json)) (key : String) : Option Json :=
  (fields.find? (fun p => p.1 == key)).map (fun p => p.2)

/-- `serde_json::Value::get(key)`: a field of an object, `none` otherwise. -/
def Json.get : Json → String → Option Json
  | Json.obj fields, key => jsonObjGet fields key
  | _, _ => none

/-- `serde_json::Value::as_object()`. -/
def Json.as_object : Json → Option (List (String × Json))
  | Json.obj fields => some fields
  | _ => none

/-- `serde_json::Value::as_i64()`. -/
def Json.as_i64 : Json → Option Int
  | Json.num n => some n
  | _ => none

/-- `serde_json::Value::as_str()`. -/
def Json.as_str : Json → Option String
  | Json.str s => some s
  | _ => none

/-- The response handling of `BitcoinRpcClient::rpc_call`
(`src/blockchain/bitcoin_rpc.rs:24`), applied to the JSON value the POST
round-trip decoded to (the transport itself, whose failures map to
`NetworkFailure` before this point, is outside the model). -/
def BitcoinRpcClient.rpc_call (json_response : Json) : Except BlockchainError Json :=
  -- Extract and return the result field (the fall-through after the error check)
  let result_path : Except BlockchainError Json :=
    match json_response.get "result" with
    | some result => Except.ok result
    | none => Except.error (BlockchainError.DataInconsistency "No result found in response")
  match (json_response.get "error").bind Json.as_object with
  | some rpc_error =>
    if rpc_error.isEmpty = false then
      let code := ((jsonObjGet rpc_error "code").bind Json.as_i64).getD 0
      let message := ((jsonObjGet rpc_error "message").bind Json.as_str).getD "Unknown RPC Error"
      -- Map JSON RPC errors to BlockchainError
      if code = -5 ∨ code = -20 then Except.error (BlockchainError.NotFound message)
      else if code = -8 ∨ code = -22 then Except.error (BlockchainError.InvalidInput message)
      else if code = -32603 then Except.error (BlockchainError.Other message)
      else Except.error (BlockchainError.Other ("RPC error " ++ toString code ++ ": " ++ message))
    else result_path
  | none => result_path

/-! ## The decorator's unimplemented operations (`src/blockchain/cache.rs:152`) -/

/-- Outcome of a call that may panic: Rust's `todo!()` macro panics with the
message `"not yet implemented"` instead of returning. -/
inductive PanicOr (α : Type) where
  | panicked (msg : String)
  | value (result : α)
deriving DecidableEq, Repr

/-- `CachingDataSource::get_address_transactions` (`src/blockchain/cache.rs:152`):
the body is `todo!()`. -/
def CachingDataSource.get_address_transactions
    (_inner : Address → Except BlockchainError (List Transaction)) (_address : Address) :
    PanicOr (Except BlockchainError (List Transaction)) :=
  PanicOr.panicked "not yet implemented"

/-- `CachingDataSource::get_transactions_batch` (`src/blockchain/cache.rs:155`):
the body is `todo!()`. -/
def CachingDataSource.get_transactions_batch
    (_inner : List Txid → Except BlockchainError (List (Option Transaction)))
    (_txids : List Txid) :
    PanicOr (Except BlockchainError (List (Option Transaction))) :=
  PanicOr.panicked "not yet implemented"

/-- `CachingDataSource::get_spending_transactions_batch`
(`src/blockchain/cache.rs:158`): the body is `todo!()`. -/
def CachingDataSource.get_spending_transactions_batch
    (_inner : List OutPoint → Except BlockchainError (List (Option Transaction)))
    (_outpoints : List OutPoint) :
    PanicOr (Except BlockchainError (List (Option Transaction))) :=
  PanicOr.panicked "not yet implemented"

/-! ## Helper lemmas about the cache map -/

theorem cacheGet_filter_erase (c : Cache) (k k' : CacheKey) (h : k' ≠ k) :
    cacheGet (c.filter (fun p => decide (p.1 ≠ k))) k' = cacheGet c k' := by
  induction c with
  | nil => rfl
  | cons p rest ih =>
    obtain ⟨pk, pe⟩ := p
    rw [List.filter_cons]
    by_cases hpk : pk = k
    · rw [if_neg (by simp [hpk])]
      rw [ih]
      have hne : ¬ (pk = k') := fun hh => h (hh ▸ hpk)
      show cacheGet rest k' = cacheGet ((pk, pe) :: rest) k'
      simp [cacheGet, hne]
    · rw [if_pos (by simp [hpk])]
      show cacheGet ((pk, pe) :: _) k' = cacheGet ((pk, pe) :: rest) k'
      by_cases hpk' : pk = k'
      · simp [cacheGet, hpk']
      · simp only [cacheGet, if_neg hpk']
        exact ih

theorem cacheGet_insert_self (c : Cache) (k : CacheKey) (e : CachedEntry) :
    cacheGet (cacheInsert c k e) k = some e := by
  simp [cacheInsert, cacheGet]

theorem cacheGet_insert_ne (c : Cache) (k k' : CacheKey) (e : CachedEntry) (h : k' ≠ k) :
    cacheGet (cacheInsert c k e) k' = cacheGet c k' := by
  have hne : ¬ (k = k') := fun hh => h (hh ▸ rfl)
  simp only [cacheInsert, cacheGet, if_neg hne]
  exact cacheGet_filter_erase c k k' h

/-! ## Run lemmas: how each decorator path evaluates -/

theorem get_transaction_hit_run
    (inner : Txid → Except BlockchainError Transaction)
    (ttl cache now txid) (entry : CachedEntry)
    (hget : cacheGet cache (CacheKey.Transaction txid) = some entry)
    (hfresh : now - entry.inserted_at < ttl) :
    CachingDataSource.get_transaction inner ttl cache now txid
      = (Except.ok entry.transaction, cache, 0) := by
  simp only [CachingDataSource.get_transaction]
  rw [hget]
  simp [hfresh]

theorem get_transaction_miss_run
    (inner : Txid → Except BlockchainError Transaction)
    (ttl cache now txid)
    (hmiss : freshHit cache ttl now (CacheKey.Transaction txid) = false) :
    CachingDataSource.get_transaction inner ttl cache now txid
      = match inner txid with
        | Except.error e => (Except.error e, cache, 1)
        | Except.ok tx =>
          (Except.ok tx, cacheInsert cache (CacheKey.Transaction txid) ⟨tx, now⟩, 1) := by
  simp only [CachingDataSource.get_transaction]
  cases hget : cacheGet cache (CacheKey.Transaction txid) with
  | none => rfl
  | some entry =>
    simp only [freshHit, hget, decide_eq_false_iff_not] at hmiss
    simp [hmiss]

theorem get_spending_hit_run
    (inner : OutPoint → Except BlockchainError (Option Transaction))
    (ttl cache now outpoint) (entry : CachedEntry)
    (hget : cacheGet cache (CacheKey.Spending outpoint) = some entry)
    (hfresh : now - entry.inserted_at < ttl) :
    CachingDataSource.get_spending_transaction inner ttl cache now outpoint
      = (Except.ok (some entry.transaction), cache, 0) := by
  simp only [CachingDataSource.get_spending_transaction]
  rw [hget]
  simp [hfresh]

theorem get_spending_miss_run
    (inner : OutPoint → Except BlockchainError (Option Transaction))
    (ttl cache now outpoint)
    (hmiss : freshHit cache ttl now (CacheKey.Spending outpoint) = false) :
    CachingDataSource.get_spending_transaction inner ttl cache now outpoint
      = match inner outpoint with
        | Except.error e => (Except.error e, cache, 1)
        | Except.ok (some transaction) =>
          (Except.ok (some transaction),
            cacheInsert cache (CacheKey.Spending outpoint) ⟨transaction, now⟩, 1)
        | Except.ok none => (Except.ok none, cache, 1) := by
  simp only [CachingDataSource.get_spending_transaction]
  cases hget : cacheGet cache (CacheKey.Spending outpoint) with
  | none =>
    cases hinner : inner outpoint with
    | error e => rfl
    | ok tx => cases tx <;> rfl
  | some entry =>
    simp only [freshHit, hget, decide_eq_false_iff_not] at hmiss
    simp only [if_neg hmiss]
    cases hinner : inner outpoint with
    | error e => rfl
    | ok tx => cases tx <;> rfl

/-! ## C1: TTL semantics of the decorator's `get_transaction` -/

/-- C1: for every txid, `get_transaction` returns a copy of the cached
transaction without invoking the wrapped source if and only if an entry
exists under `CacheKey.Transaction txid` whose age is strictly below the TTL;
when no entry exists or its age is ≥ TTL, the wrapped source is invoked and,
on success, the entry is overwritten with the fetched transaction and a fresh
timestamp, which is also the returned value. -/
theorem cache_get_transaction_ttl
    (inner : Txid → Except BlockchainError Transaction)
    (ttl : Nat) (cache : Cache) (now : Nat) (txid : Txid) :
    (∀ entry, cacheGet cache (CacheKey.Transaction txid) = some entry →
      now - entry.inserted_at < ttl →
      CachingDataSource.get_transaction inner ttl cache now txid
        = (Except.ok entry.transaction, cache, 0)) ∧
    ((CachingDataSource.get_transaction inner ttl cache now txid).2.2 = 0 →
      freshHit cache ttl now (CacheKey.Transaction txid) = true) ∧
    (freshHit cache ttl now (CacheKey.Transaction txid) = false →
      (CachingDataSource.get_transaction inner ttl cache now txid).2.2 = 1) ∧
    (freshHit cache ttl now (CacheKey.Transaction txid) = false →
      ∀ tx, inner txid = Except.ok tx →
      CachingDataSource.get_transaction inner ttl cache now txid
        = (Except.ok tx, cacheInsert cache (CacheKey.Transaction txid) ⟨tx, now⟩, 1)) := by
  refine ⟨?_, ?_, ?_, ?_⟩
  · intro entry hentry hfresh
    exact get_transaction_hit_run inner ttl cache now txid entry hentry hfresh
  · intro hcalls
    by_contra hnot
    have hmiss : freshHit cache ttl now (CacheKey.Transaction txid) = false := by
      cases hfh : freshHit cache ttl now (CacheKey.Transaction txid)
      · rfl
      · exact absurd hfh hnot
    rw [get_transaction_miss_run inner ttl cache now txid hmiss] at hcalls
    cases hinner : inner txid <;> rw [hinner] at hcalls <;> simp at hcalls
  · intro hmiss
    rw [get_transaction_miss_run inner ttl cache now txid hmiss]
    cases hinner : inner txid <;> rfl
  · intro hmiss tx hinner
    rw [get_transaction_miss_run inner ttl cache now txid hmiss, hinner]

/-- Concrete instance of C1: a call 3 ticks after insertion with TTL 10 is a
hit returning the cached transaction, leaving the map unchanged, with the
wrapped source not invoked. -/
def innerTxSourceW : Txid → Except BlockchainError Transaction :=
  fun t => Except.ok ⟨t + 100⟩

theorem cache_get_transaction_ttl_witness :
    CachingDataSource.get_transaction innerTxSourceW 10
        [(CacheKey.Transaction 5, ⟨⟨7⟩, 0⟩)] 3 5
      = (Except.ok ⟨7⟩, [(CacheKey.Transaction 5, ⟨⟨7⟩, 0⟩)], 0) :=
  (cache_get_transaction_ttl innerTxSourceW 10
      [(CacheKey.Transaction 5, ⟨⟨7⟩, 0⟩)] 3 5).1 ⟨⟨7⟩, 0⟩ rfl (by decide)

/-! ## C2: unspent (`None`) results are never memoized -/

/-- C2: for every outpoint whose wrapped-source lookup returns `none`
(unspent), each call to `get_spending_transaction` invokes the wrapped source
exactly once — starting from a map with no entry under the outpoint's key, N
consecutive calls leave the map unchanged and produce N wrapped-source
invocations; and, in general, the map changes only when the wrapped source
returned `some` transaction, which is then stored under
`CacheKey.Spending outpoint`. -/
theorem cache_unspent_never_memoized
    (inner : OutPoint → Except BlockchainError (Option Transaction))
    (ttl : Nat) (outpoint : OutPoint) (times : List Nat) (cache : Cache)
    (hnone : inner outpoint = Except.ok none)
    (hmiss : cacheGet cache (CacheKey.Spending outpoint) = none) :
    iterateSpending inner ttl outpoint times cache = (cache, times.length) ∧
    (∀ (inner' : OutPoint → Except BlockchainError (Option Transaction))
        (c : Cache) (now : Nat),
      (CachingDataSource.get_spending_transaction inner' ttl c now outpoint).2.1 ≠ c →
      ∃ tx, inner' outpoint = Except.ok (some tx) ∧
        (CachingDataSource.get_spending_transaction inner' ttl c now outpoint).2.1
          = cacheInsert c (CacheKey.Spending outpoint) ⟨tx, now⟩) := by
  constructor
  · induction times with
    | nil => rfl
    | cons now ts ih =>
      have hfh : freshHit cache ttl now (CacheKey.Spending outpoint) = false := by
        simp [freshHit, hmiss]
      have hstep : CachingDataSource.get_spending_transaction inner ttl cache now outpoint
          = (Except.ok none, cache, 1) := by
        rw [get_spending_miss_run inner ttl cache now outpoint hfh, hnone]
      simp only [iterateSpending, hstep, ih, List.length_cons]
      rw [Nat.add_comm]
  · intro inner' c now hchanged
    by_cases hfh : freshHit c ttl now (CacheKey.Spending outpoint) = true
    · exfalso
      obtain ⟨entry, hget, hfresh⟩ :
          ∃ e, cacheGet c (CacheKey.Spending outpoint) = some e ∧
            now - e.inserted_at < ttl := by
        simp only [freshHit] at hfh
        cases hget : cacheGet c (CacheKey.Spending outpoint) with
        | none => rw [hget] at hfh; cases hfh
        | some e =>
          rw [hget] at hfh
          exact ⟨e, rfl, by simpa using hfh⟩
      rw [get_spending_hit_run inner' ttl c now outpoint entry hget hfresh] at hchanged
      exact hchanged rfl
    · have hfh' : freshHit c ttl now (CacheKey.Spending outpoint) = false := by
        revert hfh
        cases freshHit c ttl now (CacheKey.Spending outpoint) <;> simp
      rw [get_spending_miss_run inner' ttl c now outpoint hfh'] at hchanged ⊢
      cases hinner : inner' outpoint with
      | error e => rw [hinner] at hchanged; exact absurd rfl hchanged
      | ok tx =>
        cases tx with
        | none => rw [hinner] at hchanged; exact absurd rfl hchanged
        | some t => exact ⟨t, rfl, rfl⟩

/-- Concrete instance of C2: three consecutive calls for an outpoint the
source reports unspent leave the map empty and hit the source three times. -/
def innerUnspentW : OutPoint → Except BlockchainError (Option Transaction) :=
  fun _ => Except.ok none

theorem cache_unspent_never_memoized_witness :
    iterateSpending innerUnspentW 10 ⟨1, 0⟩ [0, 1, 2] [] = ([], 3) :=
  (cache_unspent_never_memoized innerUnspentW 10 ⟨1, 0⟩ [0, 1, 2] [] rfl rfl).1

/-! ## C3: cache entries arise only from successful, concrete fetches -/

/-- C3: the map is unchanged whenever the wrapped source returns an error,
and unchanged on an unspent (`none`) outcome; any key present after an
operation was either already present or is the operation's own key backed by
a wrapped-source call that succeeded with a concrete transaction (found and,
for `Spending` keys, spent). -/
theorem cache_entries_only_from_success
    (innerT : Txid → Except BlockchainError Transaction)
    (innerS : OutPoint → Except BlockchainError (Option Transaction))
    (ttl : Nat) (cache : Cache) (now : Nat) (txid : Txid) (outpoint : OutPoint) :
    (∀ e, innerT txid = Except.error e →
      (CachingDataSource.get_transaction innerT ttl cache now txid).2.1 = cache) ∧
    (∀ e, innerS outpoint = Except.error e →
      (CachingDataSource.get_spending_transaction innerS ttl cache now outpoint).2.1
        = cache) ∧
    (innerS outpoint = Except.ok none →
      (CachingDataSource.get_spending_transaction innerS ttl cache now outpoint).2.1
        = cache) ∧
    (∀ k, cacheGet (CachingDataSource.get_transaction innerT ttl cache now txid).2.1 k
        ≠ none →
      cacheGet cache k ≠ none ∨
        (k = CacheKey.Transaction txid ∧ ∃ tx, innerT txid = Except.ok tx)) ∧
    (∀ k,
      cacheGet
          (CachingDataSource.get_spending_transaction innerS ttl cache now outpoint).2.1 k
        ≠ none →
      cacheGet cache k ≠ none ∨
        (k = CacheKey.Spending outpoint ∧ ∃ tx, innerS outpoint = Except.ok (some tx))) := by
  have boolSplit : ∀ b : Bool, b = true ∨ b = false := by decide
  refine ⟨?_, ?_, ?_, ?_, ?_⟩
  · intro e herr
    rcases boolSplit (freshHit cache ttl now (CacheKey.Transaction txid)) with hfh | hfh
    · obtain ⟨entry, hget, hfresh⟩ :
          ∃ en, cacheGet cache (CacheKey.Transaction txid) = some en ∧
            now - en.inserted_at < ttl := by
        simp only [freshHit] at hfh
        cases hget : cacheGet cache (CacheKey.Transaction txid) with
        | none => rw [hget] at hfh; cases hfh
        | some en => rw [hget] at hfh; exact ⟨en, rfl, by simpa using hfh⟩
      rw [get_transaction_hit_run innerT ttl cache now txid entry hget hfresh]
    · rw [get_transaction_miss_run innerT ttl cache now txid hfh, herr]
  · intro e herr
    rcases boolSplit (freshHit cache ttl now (CacheKey.Spending outpoint)) with hfh | hfh
    · obtain ⟨entry, hget, hfresh⟩ :
          ∃ en, cacheGet cache (CacheKey.Spending outpoint) = some en ∧
            now - en.inserted_at < ttl := by
        simp only [freshHit] at hfh
        cases hget : cacheGet cache (CacheKey.Spending outpoint) with
        | none => rw [hget] at hfh; cases hfh
        | some en => rw [hget] at hfh; exact ⟨en, rfl, by simpa using hfh⟩
      rw [get_spending_hit_run innerS ttl cache now outpoint entry hget hfresh]
    · rw [get_spending_miss_run innerS ttl cache now outpoint hfh, herr]
  · intro hunspent
    rcases boolSplit (freshHit cache ttl now (CacheKey.Spending outpoint)) with hfh | hfh
    · obtain ⟨entry, hget, hfresh⟩ :
          ∃ en, cacheGet cache (CacheKey.Spending outpoint) = some en ∧
            now - en.inserted_at < ttl := by
        simp only [freshHit] at hfh
        cases hget : cacheGet cache (CacheKey.Spending outpoint) with
        | none => rw [hget] at hfh; cases hfh
        | some en => rw [hget] at hfh; exact ⟨en, rfl, by simpa using hfh⟩
      rw [get_spending_hit_run innerS ttl cache now outpoint entry hget hfresh]
    · rw [get_spending_miss_run innerS ttl cache now outpoint hfh, hunspent]
  · intro k hk
    rcases boolSplit (freshHit cache ttl now (CacheKey.Transaction txid)) with hfh | hfh
    · obtain ⟨entry, hget, hfresh⟩ :
          ∃ en, cacheGet cache (CacheKey.Transaction txid) = some en ∧
            now - en.inserted_at < ttl := by
        simp only [freshHit] at hfh
        cases hget : cacheGet cache (CacheKey.Transaction txid) with
        | none => rw [hget] at hfh; cases hfh
        | some en => rw [hget] at hfh; exact ⟨en, rfl, by simpa using hfh⟩
      rw [get_transaction_hit_run innerT ttl cache now txid entry hget hfresh] at hk
      exact Or.inl hk
    · rw [get_transaction_miss_run innerT ttl cache now txid hfh] at hk
      cases hinner : innerT txid with
      | error e => rw [hinner] at hk; exact Or.inl hk
      | ok tx =>
        rw [hinner] at hk
        by_cases hkey : k = CacheKey.Transaction txid
        · exact Or.inr ⟨hkey, tx, rfl⟩
        · rw [cacheGet_insert_ne cache (CacheKey.Transaction txid) k ⟨tx, now⟩ hkey] at hk
          exact Or.inl hk
  · intro k hk
    rcases boolSplit (freshHit cache ttl now (CacheKey.Spending outpoint)) with hfh | hfh
    · obtain ⟨entry, hget, hfresh⟩ :
          ∃ en, cacheGet cache (CacheKey.Spending outpoint) = some en ∧
            now - en.inserted_at < ttl := by
        simp only [freshHit] at hfh
        cases hget : cacheGet cache (CacheKey.Spending outpoint) with
        | none => rw [hget] at hfh; cases hfh
        | some en => rw [hget] at hfh; exact ⟨en, rfl, by simpa using hfh⟩
      rw [get_spending_hit_run innerS ttl cache now outpoint entry hget hfresh] at hk
      exact Or.inl hk
    · rw [get_spending_miss_run innerS ttl cache now outpoint hfh] at hk
      cases hinner : innerS outpoint with
      | error e => rw [hinner] at hk; exact Or.inl hk
      | ok tx =>
        cases tx with
        | none => rw [hinner] at hk; exact Or.inl hk
        | some t =>
          rw [hinner] at hk
          by_cases hkey : k = CacheKey.Spending outpoint
          · exact Or.inr ⟨hkey, t, rfl⟩
          · rw [cacheGet_insert_ne cache (CacheKey.Spending outpoint) k ⟨t, now⟩ hkey] at hk
            exact Or.inl hk

/-- Concrete instance of C3: a failing fetch leaves the (empty) map empty. -/
def innerTxFailW : Txid → Except BlockchainError Transaction :=
  fun _ => Except.error (BlockchainError.NotFound "no such transaction")

def innerSpendFailW : OutPoint → Except BlockchainError (Option Transaction) :=
  fun _ => Except.error (BlockchainError.NetworkFailure "connection refused")

theorem cache_entries_only_from_success_witness :
    (CachingDataSource.get_transaction innerTxFailW 10 [] 0 5).2.1 = [] :=
  (cache_entries_only_from_success innerTxFailW innerSpendFailW 10 [] 0 5 ⟨5, 0⟩).1
    (BlockchainError.NotFound "no such transaction") rfl

/-! ## C4: the two key spaces are disjoint -/

theorem get_transaction_congr
    (inner : Txid → Except BlockchainError Transaction)
    (ttl : Nat) (c1 c2 : Cache) (now : Nat) (txid : Txid)
    (h : cacheGet c1 (CacheKey.Transaction txid) = cacheGet c2 (CacheKey.Transaction txid)) :
    (CachingDataSource.get_transaction inner ttl c1 now txid).1
        = (CachingDataSource.get_transaction inner ttl c2 now txid).1 ∧
    (CachingDataSource.get_transaction inner ttl c1 now txid).2.2
        = (CachingDataSource.get_transaction inner ttl c2 now txid).2.2 := by
  simp only [CachingDataSource.get_transaction]
  rw [h]
  cases cacheGet c2 (CacheKey.Transaction txid) with
  | none => cases inner txid <;> exact ⟨rfl, rfl⟩
  | some entry =>
    dsimp only
    by_cases hfresh : now - entry.inserted_at < ttl
    · rw [if_pos hfresh]; exact ⟨rfl, rfl⟩
    · rw [if_neg hfresh]
      cases inner txid <;> exact ⟨rfl, rfl⟩

theorem get_spending_congr
    (inner : OutPoint → Except BlockchainError (Option Transaction))
    (ttl : Nat) (c1 c2 : Cache) (now : Nat) (outpoint : OutPoint)
    (h : cacheGet c1 (CacheKey.Spending outpoint) = cacheGet c2 (CacheKey.Spending outpoint)) :
    (CachingDataSource.get_spending_transaction inner ttl c1 now outpoint).1
        = (CachingDataSource.get_spending_transaction inner ttl c2 now outpoint).1 ∧
    (CachingDataSource.get_spending_transaction inner ttl c1 now outpoint).2.2
        = (CachingDataSource.get_spending_transaction inner ttl c2 now outpoint).2.2 := by
  simp only [CachingDataSource.get_spending_transaction]
  rw [h]
  cases cacheGet c2 (CacheKey.Spending outpoint) with
  | none =>
    cases hinner : inner outpoint with
    | error e => exact ⟨rfl, rfl⟩
    | ok tx => cases tx <;> exact ⟨rfl, rfl⟩
  | some entry =>
    dsimp only
    by_cases hfresh : now - entry.inserted_at < ttl
    · rw [if_pos hfresh]; exact ⟨rfl, rfl⟩
    · rw [if_neg hfresh]
      cases hinner : inner outpoint with
      | error e => exact ⟨rfl, rfl⟩
      | ok tx => cases tx <;> exact ⟨rfl, rfl⟩

/-- C4: for every transaction id `x` and every outpoint (including one whose
txid equals `x`), `CacheKey.Transaction x` never equals
`CacheKey.Spending outpoint`; inserting under one tag leaves lookups — and
hence the observable behaviour (result and wrapped-source invocation count)
of the other tag's query — untouched. -/
theorem cache_key_spaces_disjoint
    (x : Txid) (outpoint : OutPoint) (e e' : CachedEntry) (cache : Cache)
    (innerT : Txid → Except BlockchainError Transaction)
    (innerS : OutPoint → Except BlockchainError (Option Transaction))
    (ttl now : Nat) :
    CacheKey.Transaction x ≠ CacheKey.Spending outpoint ∧
    cacheGet (cacheInsert cache (CacheKey.Transaction x) e) (CacheKey.Spending outpoint)
      = cacheGet cache (CacheKey.Spending outpoint) ∧
    cacheGet (cacheInsert cache (CacheKey.Spending outpoint) e') (CacheKey.Transaction x)
      = cacheGet cache (CacheKey.Transaction x) ∧
    (CachingDataSource.get_spending_transaction innerS ttl
        (cacheInsert cache (CacheKey.Transaction x) e) now outpoint).1
      = (CachingDataSource.get_spending_transaction innerS ttl cache now outpoint).1 ∧
    (CachingDataSource.get_spending_transaction innerS ttl
        (cacheInsert cache (CacheKey.Transaction x) e) now outpoint).2.2
      = (CachingDataSource.get_spending_transaction innerS ttl cache now outpoint).2.2 ∧
    (CachingDataSource.get_transaction innerT ttl
        (cacheInsert cache (CacheKey.Spending outpoint) e') now x).1
      = (CachingDataSource.get_transaction innerT ttl cache now x).1 ∧
    (CachingDataSource.get_transaction innerT ttl
        (cacheInsert cache (CacheKey.Spending outpoint) e') now x).2.2
      = (CachingDataSource.get_transaction innerT ttl cache now x).2.2 := by
  have hne : CacheKey.Transaction x ≠ CacheKey.Spending outpoint := fun h =>
    CacheKey.noConfusion h
  have hne' : CacheKey.Spending outpoint ≠ CacheKey.Transaction x := fun h =>
    CacheKey.noConfusion h
  have hS : cacheGet (cacheInsert cache (CacheKey.Transaction x) e)
      (CacheKey.Spending outpoint) = cacheGet cache (CacheKey.Spending outpoint) :=
    cacheGet_insert_ne cache (CacheKey.Transaction x) (CacheKey.Spending outpoint) e hne'
  have hT : cacheGet (cacheInsert cache (CacheKey.Spending outpoint) e')
      (CacheKey.Transaction x) = cacheGet cache (CacheKey.Transaction x) :=
    cacheGet_insert_ne cache (CacheKey.Spending outpoint) (CacheKey.Transaction x) e' hne
  obtain ⟨hS1, hS2⟩ := get_spending_congr innerS ttl
    (cacheInsert cache (CacheKey.Transaction x) e) cache now outpoint hS
  obtain ⟨hT1, hT2⟩ := get_transaction_congr innerT ttl
    (cacheInsert cache (CacheKey.Spending outpoint) e') cache now x hT
  exact ⟨hne, hS, hT, hS1, hS2, hT1, hT2⟩

/-! ## C9: the decorator's address and batch operations are `todo!()` stubs -/

def innerAddressSourceW : Address → Except BlockchainError (List Transaction) :=
  fun _ => Except.ok []

/-- C9 counterexample: with a wrapped source that successfully returns the
empty list for every address, the decorator's `get_address_transactions` does
not return the wrapped source's result — its body is `todo!()`, which panics.
So the claim "the decorator's `get_address_transactions`,
`get_transactions_batch` and `get_spending_transactions_batch` are exact
pass-throughs to the wrapped source" is false. -/
theorem cache_passthrough_counterexample :
    CachingDataSource.get_address_transactions innerAddressSourceW "addr"
      ≠ PanicOr.value (innerAddressSourceW "addr") := fun h =>
  PanicOr.noConfusion h

/-- C9 amended: the decorator's `get_address_transactions`,
`get_transactions_batch` and `get_spending_transactions_batch` are
unimplemented `todo!()` stubs: every call panics with "not yet implemented"
and never consults the wrapped source. -/
theorem cache_batch_ops_unimplemented
    (innerA : Address → Except BlockchainError (List Transaction))
    (innerB : List Txid → Except BlockchainError (List (Option Transaction)))
    (innerC : List OutPoint → Except BlockchainError (List (Option Transaction)))
    (address : Address) (txids : List Txid) (outpoints : List OutPoint) :
    CachingDataSource.get_address_transactions innerA address
      = PanicOr.panicked "not yet implemented" ∧
    CachingDataSource.get_transactions_batch innerB txids
      = PanicOr.panicked "not yet implemented" ∧
    CachingDataSource.get_spending_transactions_batch innerC outpoints
      = PanicOr.panicked "not yet implemented" :=
  ⟨rfl, rfl, rfl⟩

/-! ## C6: pacing of outbound Esplora requests -/

def sampleWorld : EsploraWorld where
  net := fun _ => Except.ok { status := 200, body := Except.ok "0100" }
  decodeHex := fun _ => Except.ok ⟨42⟩
  parseOutspend := fun _ => Except.ok { spent := true, txid := some 7 }

/-- C6 counterexample: the claim "every outbound request issued by the
Esplora adapter — including those issued by `get_transaction` and the
follow-up fetch inside `get_spending_transaction` — is preceded by a fixed
minimum pacing delay" is false: against a backend that answers every request,
`get_transaction` issues its GET with no preceding sleep, and the follow-up
GET inside `get_spending_transaction` directly follows the probe GET. -/
theorem esplora_pacing_counterexample :
    paced (EsploraClient.get_transaction sampleWorld "https://mempool.space/api" 1).1
        = false ∧
    paced (EsploraClient.get_spending_transaction sampleWorld
        "https://mempool.space/api" ⟨1, 0⟩).1 = false :=
  ⟨rfl, rfl⟩

/-- C6 amended: only the outspend probe inside `get_spending_transaction` is
preceded by the fixed 100 ms pacing delay (`throttle` is called once, at the
start of that method); requests issued by `get_transaction` — whether called
directly or as the follow-up fetch inside `get_spending_transaction` — are
issued with no preceding delay. -/
theorem esplora_pacing_amended (w : EsploraWorld) (base_url : String) (txid : Txid)
    (outpoint : OutPoint) :
    (EsploraClient.get_transaction w base_url txid).1
      = [EsploraEvent.httpGet (txHexUrl base_url txid)] ∧
    (∃ rest,
      (EsploraClient.get_spending_transaction w base_url outpoint).1
        = EsploraEvent.sleepMs 100
            :: EsploraEvent.httpGet (outspendUrl base_url outpoint) :: rest
      ∧ sleepCount rest = 0) := by
  have htx : ∀ t : Txid, (EsploraClient.get_transaction w base_url t).1
      = [EsploraEvent.httpGet (txHexUrl base_url t)] := by
    intro t
    simp only [EsploraClient.get_transaction]
    cases w.net (txHexUrl base_url t) with
    | error e => rfl
    | ok response =>
      dsimp only
      by_cases h404 : response.status = 404
      · rw [if_pos h404]
      · rw [if_neg h404]
        by_cases hsucc : statusIsSuccess response.status = false
        · rw [if_pos hsucc]
        · rw [if_neg hsucc]
          cases response.body with
          | error e => rfl
          | ok hex =>
            dsimp only
            cases w.decodeHex hex <;> rfl
  refine ⟨htx txid, ?_⟩
  simp only [EsploraClient.get_spending_transaction]
  cases w.net (outspendUrl base_url outpoint) with
  | error e => exact ⟨[], rfl, rfl⟩
  | ok response =>
    dsimp only
    by_cases h404 : response.status = 404
    · rw [if_pos h404]; exact ⟨[], rfl, rfl⟩
    · rw [if_neg h404]
      by_cases hsucc : statusIsSuccess response.status = false
      · rw [if_pos hsucc]; exact ⟨[], rfl, rfl⟩
      · rw [if_neg hsucc]
        cases response.body.bind w.parseOutspend with
        | error e => exact ⟨[], rfl, rfl⟩
        | ok outspend =>
          dsimp only
          by_cases hspent : outspend.spent = false
          · rw [if_pos hspent]; exact ⟨[], rfl, rfl⟩
          · rw [if_neg hspent]
            cases houtsp : outspend.txid with
            | none => exact ⟨[], rfl, rfl⟩
            | some t =>
              refine ⟨[EsploraEvent.httpGet (txHexUrl base_url t)], ?_, rfl⟩
              dsimp only
              rw [htx t]
              rfl

/-! ## C5: the Esplora adapter's two-step spend resolution -/

/-- C5: when the outspend probe answers with a decodable success response,
`get_spending_transaction` (a) returns `Ok none` with no further fetch if
`spent = false`; (b) on `spent = true` with a txid, fetches that transaction
and returns it wrapped in `some` on success, propagating any failure of the
follow-up fetch (e.g. `NotFound`) as the call's error; and (c) on
`spent = true` with no txid, fails with `DataInconsistency`. -/
theorem esplora_spending_two_step
    (w : EsploraWorld) (base_url : String) (outpoint : OutPoint)
    (response : HttpResponse) (outspend : OutspendResponse)
    (hnet : w.net (outspendUrl base_url outpoint) = Except.ok response)
    (hok : statusIsSuccess response.status = true)
    (hparse : response.body.bind w.parseOutspend = Except.ok outspend) :
    (outspend.spent = false →
      EsploraClient.get_spending_transaction w base_url outpoint
        = ([EsploraEvent.sleepMs 100,
            EsploraEvent.httpGet (outspendUrl base_url outpoint)], Except.ok none)) ∧
    (∀ spendingTxid, outspend.spent = true → outspend.txid = some spendingTxid →
      (∀ tx, (EsploraClient.get_transaction w base_url spendingTxid).2 = Except.ok tx →
        (EsploraClient.get_spending_transaction w base_url outpoint).2
          = Except.ok (some tx)) ∧
      (∀ e, (EsploraClient.get_transaction w base_url spendingTxid).2 = Except.error e →
        (EsploraClient.get_spending_transaction w base_url outpoint).2
          = Except.error e)) ∧
    (outspend.spent = true → outspend.txid = none →
      (EsploraClient.get_spending_transaction w base_url outpoint).2
        = Except.error (BlockchainError.DataInconsistency
            "Outspend marked spent but no txid returned")) := by
  have h404 : ¬ (response.status = 404) := by
    intro h
    rw [h] at hok
    exact absurd hok (by decide)
  have hrun : EsploraClient.get_spending_transaction w base_url outpoint
      = (if outspend.spent = false then
          ([EsploraEvent.sleepMs 100, EsploraEvent.httpGet (outspendUrl base_url outpoint)],
            Except.ok none)
        else
          match outspend.txid with
          | some spendingTxid =>
            ([EsploraEvent.sleepMs 100, EsploraEvent.httpGet (outspendUrl base_url outpoint)]
                ++ (EsploraClient.get_transaction w base_url spendingTxid).1,
              (EsploraClient.get_transaction w base_url spendingTxid).2.map some)
          | none =>
            ([EsploraEvent.sleepMs 100, EsploraEvent.httpGet (outspendUrl base_url outpoint)],
              Except.error (BlockchainError.DataInconsistency
                "Outspend marked spent but no txid returned"))) := by
    simp only [EsploraClient.get_spending_transaction]
    rw [hnet]
    dsimp only
    rw [if_neg h404, hok]
    rw [if_neg (by decide : ¬ (true = false))]
    rw [hparse]
  refine ⟨?_, ?_, ?_⟩
  · intro hspent
    rw [hrun, if_pos hspent]
  · intro spendingTxid hspent htxid
    have hcond : ¬ (outspend.spent = false) := by rw [hspent]; decide
    rw [hrun, if_neg hcond, htxid] at *
    constructor
    · intro tx htx
      show ((_, (EsploraClient.get_transaction w base_url spendingTxid).2.map some)).2 = _
      rw [htx]
      rfl
    · intro e he
      show ((_, (EsploraClient.get_transaction w base_url spendingTxid).2.map some)).2 = _
      rw [he]
      rfl
  · intro hspent htxid
    have hcond : ¬ (outspend.spent = false) := by rw [hspent]; decide
    rw [hrun, if_neg hcond, htxid]

/-- Concrete instance of C5: a probe reporting `spent = false` yields
`Ok none`, with no request after the sleep-then-probe pair. -/
def unspentWorld : EsploraWorld where
  net := fun _ => Except.ok { status := 200, body := Except.ok "probe-body" }
  decodeHex := fun _ => Except.error "unused"
  parseOutspend := fun _ => Except.ok { spent := false, txid := none }

theorem esplora_spending_two_step_witness :
    EsploraClient.get_spending_transaction unspentWorld "https://base" ⟨9, 1⟩
      = ([EsploraEvent.sleepMs 100, EsploraEvent.httpGet (outspendUrl "https://base" ⟨9, 1⟩)],
          Except.ok none) :=
  (esplora_spending_two_step unspentWorld "https://base" ⟨9, 1⟩
      { status := 200, body := Except.ok "probe-body" } { spent := false, txid := none }
      rfl rfl rfl).1 rfl

/-! ## C7: error mapping of the Esplora adapter's `get_transaction` -/

/-- C7: for every txid, `get_transaction` maps an HTTP 404 to `NotFound` with
a detail string referencing the queried txid; maps any other non-success
status to `NetworkFailure` carrying the status and the response body; and
maps a success response whose body fails to decode as transaction hex to
`DataInconsistency`. -/
theorem esplora_get_transaction_error_mapping
    (w : EsploraWorld) (base_url : String) (txid : Txid) (response : HttpResponse)
    (hnet : w.net (txHexUrl base_url txid) = Except.ok response) :
    (response.status = 404 →
      (EsploraClient.get_transaction w base_url txid).2
        = Except.error (BlockchainError.NotFound
            ("Transaction " ++ toString txid ++ " not found"))) ∧
    (response.status ≠ 404 → statusIsSuccess response.status = false →
      ∀ b, response.body = Except.ok b →
      (EsploraClient.get_transaction w base_url txid).2
        = Except.error (BlockchainError.NetworkFailure
            ("HTTP " ++ toString response.status ++ " for " ++ txHexUrl base_url txid
              ++ ": " ++ b))) ∧
    (statusIsSuccess response.status = true →
      ∀ hex e, response.body = Except.ok hex → w.decodeHex hex = Except.error e →
      (EsploraClient.get_transaction w base_url txid).2
        = Except.error (BlockchainError.DataInconsistency ("Invalid hex: " ++ e))) := by
  refine ⟨?_, ?_, ?_⟩
  · intro h404
    simp only [EsploraClient.get_transaction]
    rw [hnet]
    dsimp only
    rw [if_pos h404]
  · intro h404 hfail b hbody
    simp only [EsploraClient.get_transaction]
    rw [hnet]
    dsimp only
    rw [if_neg h404, if_pos hfail, hbody]
  · intro hok hex e hbody hdecode
    have h404 : ¬ (response.status = 404) := by
      intro h
      rw [h] at hok
      exact absurd hok (by decide)
    simp only [EsploraClient.get_transaction]
    rw [hnet]
    dsimp only
    rw [if_neg h404, hok, if_neg (by decide : ¬ (true = false)), hbody]
    dsimp only
    rw [hdecode]

/-- Concrete instance of C7: a 404 answer for txid 77 yields `NotFound` whose
detail names txid 77. -/
def notFoundWorld : EsploraWorld where
  net := fun _ => Except.ok { status := 404, body := Except.ok "" }
  decodeHex := fun _ => Except.error "unused"
  parseOutspend := fun _ => Except.error "unused"

theorem esplora_get_transaction_error_mapping_witness :
    (EsploraClient.get_transaction notFoundWorld "https://base" 77).2
      = Except.error (BlockchainError.NotFound
          ("Transaction " ++ toString (77 : Nat) ++ " not found")) :=
  (esplora_get_transaction_error_mapping notFoundWorld "https://base" 77
      { status := 404, body := Except.ok "" } rfl).1 rfl

/-! ## C8: deterministic RPC error-code mapping -/

/-- C8: when the response carries a non-empty error object, `rpc_call` maps
its code deterministically — −5 and −20 to `NotFound`, −8 and −22 to
`InvalidInput`, −32603 to `Other`, and any other code to `Other` with the
original code and message preserved in the detail string — and a response
carrying neither a result field nor an error object fails with
`DataInconsistency`. -/
theorem rpc_error_code_mapping
    (json_response : Json) (rpc_error : List (String × Json)) (code : Int) (message : String)
    (herr : (json_response.get "error").bind Json.as_object = some rpc_error)
    (hne : rpc_error.isEmpty = false)
    (hcode : ((jsonObjGet rpc_error "code").bind Json.as_i64).getD 0 = code)
    (hmsg : ((jsonObjGet rpc_error "message").bind Json.as_str).getD "Unknown RPC Error"
      = message) :
    ((code = -5 ∨ code = -20) →
      BitcoinRpcClient.rpc_call json_response
        = Except.error (BlockchainError.NotFound message)) ∧
    ((code = -8 ∨ code = -22) →
      BitcoinRpcClient.rpc_call json_response
        = Except.error (BlockchainError.InvalidInput message)) ∧
    (code = -32603 →
      BitcoinRpcClient.rpc_call json_response
        = Except.error (BlockchainError.Other message)) ∧
    (¬ (code = -5 ∨ code = -20) → ¬ (code = -8 ∨ code = -22) → code ≠ -32603 →
      BitcoinRpcClient.rpc_call json_response
        = Except.error (BlockchainError.Other
            ("RPC error " ++ toString code ++ ": " ++ message))) ∧
    (∀ resp : Json, (resp.get "error").bind Json.as_object = none →
      resp.get "result" = none →
      BitcoinRpcClient.rpc_call resp
        = Except.error (BlockchainError.DataInconsistency "No result found in response")) := by
  have hrun : BitcoinRpcClient.rpc_call json_response
      = (if code = -5 ∨ code = -20 then Except.error (BlockchainError.NotFound message)
        else if code = -8 ∨ code = -22 then
          Except.error (BlockchainError.InvalidInput message)
        else if code = -32603 then Except.error (BlockchainError.Other message)
        else Except.error (BlockchainError.Other
          ("RPC error " ++ toString code ++ ": " ++ message))) := by
    simp only [BitcoinRpcClient.rpc_call]
    rw [herr]
    dsimp only
    rw [hne, if_pos rfl, hcode, hmsg]
  refine ⟨?_, ?_, ?_, ?_, ?_⟩
  · intro h
    rw [hrun, if_pos h]
  · intro h
    have h1 : ¬ (code = -5 ∨ code = -20) := by
      rcases h with rfl | rfl <;> decide
    rw [hrun, if_neg h1, if_pos h]
  · intro h
    subst h
    rw [hrun, if_neg (by decide), if_neg (by decide), if_pos rfl]
  · intro h1 h2 h3
    rw [hrun, if_neg h1, if_neg h2, if_neg h3]
  · intro resp herr2 hres
    simp only [BitcoinRpcClient.rpc_call]
    rw [herr2]
    dsimp only
    rw [hres]

/-- Concrete instance of C8: error code −5 maps to `NotFound` carrying the
backend's message. -/
def rpcErrorResponseW : Json :=
  Json.obj [("error", Json.obj
    [("code", Json.num (-5)),
     ("message", Json.str "No such mempool or blockchain transaction")])]

theorem rpc_error_code_mapping_witness :
    BitcoinRpcClient.rpc_call rpcErrorResponseW
      = Except.error (BlockchainError.NotFound
          "No such mempool or blockchain transaction") :=
  (rpc_error_code_mapping rpcErrorResponseW
      [("code", Json.num (-5)),
       ("message", Json.str "No such mempool or blockchain transaction")]
      (-5) "No such mempool or blockchain transaction" rfl rfl rfl rfl).1 (Or.inl rfl)

/-! ## C10: non-error responses proceed to the result field -/

/-- C10: `rpc_call` treats a response whose error field is absent, is not a
JSON object (e.g. the conventional `"error": null`), or is an empty object
as a non-error, and proceeds to extract and return the result field; only a
non-empty error object triggers the taxonomy mapping. -/
theorem rpc_non_error_paths
    (json_response : Json)
    (h : (json_response.get "error").bind Json.as_object = none
       ∨ (json_response.get "error").bind Json.as_object = some []) :
    (∀ result, json_response.get "result" = some result →
      BitcoinRpcClient.rpc_call json_response = Except.ok result) ∧
    (json_response.get "result" = none →
      BitcoinRpcClient.rpc_call json_response
        = Except.error (BlockchainError.DataInconsistency "No result found in response")) := by
  have hrun : BitcoinRpcClient.rpc_call json_response
      = match json_response.get "result" with
        | some result => Except.ok result
        | none =>
          Except.error (BlockchainError.DataInconsistency "No result found in response") := by
    rcases h with h | h
    · simp only [BitcoinRpcClient.rpc_call]
      rw [h]
    · simp only [BitcoinRpcClient.rpc_call]
      rw [h]
      dsimp only
      rw [if_neg (by decide : ¬ (List.isEmpty ([] : List (String × Json)) = false))]
  constructor
  · intro result hres
    rw [hrun, hres]
  · intro hres
    rw [hrun, hres]

/-- Concrete instance of C10: `error: null` together with `result: 3` returns
the result. -/
def rpcNullErrorResponseW : Json :=
  Json.obj [("error", Json.null), ("result", Json.num 3)]

theorem rpc_non_error_paths_witness :
    BitcoinRpcClient.rpc_call rpcNullErrorResponseW = Except.ok (Json.num 3) :=
  (rpc_non_error_paths rpcNullErrorResponseW (Or.inl rfl)).1 (Json.num 3) rfl

end Pathfinder
